import Mathlib

/-!
Verification of the reminder scheduling and persistence subsystem of the
bk-reminder bot (src/bot.py), shallowly embedded in Lean 4.

Time is measured in integer seconds.  A Python `datetime` is modelled by
its local wall-clock value together with an optional UTC offset (`none`
models a naive datetime).  A timezone (pytz object) is modelled by two
integer functions: the offset in effect at a given UTC instant (used by
`astimezone`) and the offset `localize` assigns to a given naive wall
time.  Stored timestamp strings are modelled by the shape
`datetime.fromisoformat` extracts from them: unparsable text, a naive
wall time, or a wall time with an explicit offset.
-/

namespace BkBot

/-! ## Clock and timezone service -/

/-- A Python `datetime`: local wall-clock seconds plus optional UTC offset
in seconds (`none` = naive). -/
structure PyDateTime where
  wall : Int
  off : Option Int
deriving DecidableEq, Repr

/-- The UTC instant an aware datetime denotes (`wall - offset`).  Only used
on aware values, where `off` is `some`. -/
def PyDateTime.instant (d : PyDateTime) : Int :=
  d.wall - d.off.getD 0

/-- Shape of a stored ISO timestamp string as seen by
`datetime.fromisoformat`: syntactically invalid, a zone-naive wall time, or
a wall time plus explicit UTC offset. -/
inductive IsoStr
  | invalid (s : String)
  | naive (wall : Int)
  | aware (wall : Int) (off : Int)
deriving DecidableEq, Repr

/-- A pytz timezone: `utcOff u` is the offset in effect at UTC instant `u`
(what `astimezone(TZ)` applies), `locOff w` is the offset `TZ.localize`
assigns to the naive wall time `w`. -/
structure Tz where
  utcOff : Int → Int
  locOff : Int → Int

/-- `now_tz()`: the current time as an aware datetime in the configured
zone, given the current UTC instant. -/
def now_tz (tz : Tz) (nowUtc : Int) : PyDateTime :=
  ⟨nowUtc + tz.utcOff nowUtc, some (tz.utcOff nowUtc)⟩

/-- `dt_from_iso`: parse an ISO string; localize zone-naive text into the
configured zone, convert zone-bearing text into it; `none` on unparsable
input. -/
def dt_from_iso (tz : Tz) : IsoStr → Option PyDateTime
  | .invalid _ => none
  | .naive w => some ⟨w, some (tz.locOff w)⟩
  | .aware w off =>
      let u := w - off
      some ⟨u + tz.utcOff u, some (tz.utcOff u)⟩

/-- `dt_to_iso`: canonical zone-aware serialization; localizes naive input,
converts aware input into the configured zone, then serializes wall time
and offset. -/
def dt_to_iso (tz : Tz) (d : PyDateTime) : IsoStr :=
  match d.off with
  | none => .aware d.wall (tz.locOff d.wall)
  | some off =>
      let u := d.wall - off
      .aware (u + tz.utcOff u) (tz.utcOff u)

/-- A concrete fixed-offset timezone (UTC+3, the configured default
`Europe/Moscow`), used for concrete evaluations. -/
def tzMsk : Tz :=
  ⟨fun _ => 10800, fun _ => 10800⟩

/-! ## Reminders and the durable store -/

/-- A stored reminder record.  A missing `id` field in the backing JSON is
represented by the empty string (the code reads it with
`r.get("id", "")`); a missing or null `thread_id` by `none`. -/
structure Reminder where
  id : String
  chat_id : Int
  creator_id : Int
  title : String
  event_dt : IsoStr
  created_at : IsoStr
  thread_id : Option Int
deriving DecidableEq, Repr

/-- The persisted document: the reminders list and per-chat settings
(`chat_id` to pinned `allowed_thread_id`). -/
structure Store where
  reminders : List Reminder
  chat_settings : List (Int × Int)
deriving DecidableEq, Repr

/-- `get_allowed_thread_id`: the pinned thread for a chat, if any. -/
def get_allowed_thread_id (s : Store) (chat : Int) : Option Int :=
  (s.chat_settings.find? (fun p => p.1 = chat)).map Prod.snd

/-! ## Notification job scheduling -/

/-- Derived notification job identifier, as in the f-string
`f"{rem_id}_{kind}"`. -/
def jobId (remId kind : String) : String :=
  remId ++ "_" ++ kind

/-- Effect of one call into the scheduler facade: the jobs registered
(id and fire instant, with replace-existing semantics) and the job ids
passed to `remove_job` (cancellation, a no-op when absent). -/
structure SchedResult where
  scheduled : List (String × Int)
  canceled : List String
deriving DecidableEq, Repr

/-- The two advance-notification offsets iterated by
`schedule_reminder_jobs`: kind tag and offset in seconds. -/
def offsets : List (String × Int) :=
  [("24h", 86400), ("1h", 3600)]

/-- `schedule_reminder_jobs`: for a parseable `event_dt`, walk the two
offsets; a fire time already at or before now cancels any existing job of
that id and schedules nothing, a strictly future fire time schedules the
job at it.  Unparsable `event_dt` returns immediately with no effect. -/
def schedule_reminder_jobs (tz : Tz) (nowUtc : Int) (rem : Reminder) : SchedResult :=
  match dt_from_iso tz rem.event_dt with
  | none => ⟨[], []⟩
  | some event_dt =>
      offsets.foldl
        (fun acc kd =>
          let run_at : PyDateTime := ⟨event_dt.wall - kd.2, event_dt.off⟩
          let jid := jobId rem.id kd.1
          if run_at.instant ≤ (now_tz tz nowUtc).instant then
            ⟨acc.scheduled, acc.canceled ++ [jid]⟩
          else
            ⟨acc.scheduled ++ [(jid, run_at.instant)], acc.canceled⟩)
        ⟨[], []⟩

/-- The per-record timestamp renormalization performed by rehydration and
by listing: a parseable `event_dt` is re-serialized canonically, an
unparsable one is left as is. -/
def normalizeEvent (tz : Tz) (r : Reminder) : Reminder :=
  match dt_from_iso tz r.event_dt with
  | some dt => { r with event_dt := dt_to_iso tz dt }
  | none => r

/-- `reschedule_all_from_store` (startup rehydration): re-normalize every
parseable stored timestamp, call `schedule_reminder_jobs` on every record
(normalized when possible), and save the document; returns the saved store
and the per-record scheduler effects in order. -/
def reschedule_all_from_store (tz : Tz) (nowUtc : Int) (store : Store) :
    Store × List SchedResult :=
  let res := store.reminders.foldl
    (fun (acc : List Reminder × List SchedResult) r =>
      (acc.1 ++ [normalizeEvent tz r],
       acc.2 ++ [schedule_reminder_jobs tz nowUtc (normalizeEvent tz r)]))
    ([], [])
  ({ store with reminders := res.1 }, res.2)

/-! ## Expiry cleanup -/

/-- Result of one `cleanup_expired` sweep, mirroring its locals: the kept
records (with re-normalized timestamps), the ids of removed records, the
job ids passed to `remove_job`, the resulting persisted document, and
whether `save_data` was called. -/
structure CleanupResult where
  keep : List Reminder
  removed_ids : List String
  canceled : List String
  store : Store
  saved : Bool
deriving DecidableEq, Repr

/-- Loop body of the cleanup partition: an unparsable or
before-the-cutoff record contributes its id to the removal list, any
other record is kept with its timestamp re-serialized. -/
def cleanupStep (tz : Tz) (cutoffI : Int) (acc : List Reminder × List String)
    (r : Reminder) : List Reminder × List String :=
  match dt_from_iso tz r.event_dt with
  | none => (acc.1, acc.2 ++ [r.id])
  | some dt =>
    if dt.instant < cutoffI then (acc.1, acc.2 ++ [r.id])
    else (acc.1 ++ [{ r with event_dt := dt_to_iso tz dt }], acc.2)

/-- `cleanup_expired`: no-op on an empty store; otherwise partition
against `cutoff = now() - retention`, and only when something was removed
cancel both derived job ids of every removed record with a non-empty id
and save the kept records. -/
def cleanup_expired (tz : Tz) (nowUtc : Int) (retentionHours : Int)
    (store : Store) : CleanupResult :=
  if store.reminders = [] then ⟨[], [], [], store, false⟩
  else
    let cutoff : PyDateTime :=
      ⟨(now_tz tz nowUtc).wall - retentionHours * 3600, (now_tz tz nowUtc).off⟩
    let kr := store.reminders.foldl (cleanupStep tz cutoff.instant) ([], [])
    if kr.2 = [] then ⟨kr.1, kr.2, [], store, false⟩
    else
      ⟨kr.1, kr.2,
       (kr.2.filter (fun rid => rid ≠ "")).foldl
         (fun acc rid => acc ++ [jobId rid "24h", jobId rid "1h"]) [],
       { store with reminders := kr.1 }, true⟩

/-- The removal condition of the cleanup partition: unparsable timestamp,
or an instant strictly before the cutoff. -/
def isRemoved (tz : Tz) (cutoffI : Int) (r : Reminder) : Bool :=
  match dt_from_iso tz r.event_dt with
  | none => true
  | some dt => decide (dt.instant < cutoffI)

/-! ## Listing reminders for a chat -/

/-- Insertion into a list ordered by the comparator on serialized
`event_dt` keys. -/
def insertByKey (le : IsoStr → IsoStr → Bool) (r : Reminder) :
    List Reminder → List Reminder
  | [] => [r]
  | x :: xs =>
    if le x.event_dt r.event_dt then x :: insertByKey le r xs
    else r :: x :: xs

/-- Sorting by the serialized `event_dt` key, modelling
`items.sort(key=lambda r: r.get("event_dt", ""))`; the string comparison
on serializations is a parameter. -/
def sortByKey (le : IsoStr → IsoStr → Bool) : List Reminder → List Reminder
  | [] => []
  | x :: xs => insertByKey le x (sortByKey le xs)

/-- A trivial concrete comparator, used to instantiate the sort parameter
in concrete evaluations (membership in the result does not depend on the
comparator). -/
def leTrue : IsoStr → IsoStr → Bool :=
  fun _ _ => true

/-- `get_chat_reminders`: select the chat's records, re-serialize every
parseable timestamp, sort by the serialized key, and if any timestamp
representation changed write the corrected records back into the document
by id (ids that are empty are not written back); returns the sorted list
and the resulting persisted document. -/
def get_chat_reminders (tz : Tz) (le : IsoStr → IsoStr → Bool)
    (store : Store) (chat : Int) : List Reminder × Store :=
  let items := store.reminders.filter (fun r => r.chat_id = chat)
  let items2 := items.map (normalizeEvent tz)
  let sorted := sortByKey le items2
  let store2 :=
    if items2 = items then store
    else
      { store with reminders := store.reminders.map (fun r =>
          ((sorted.filter (fun x => x.id == r.id && x.id != "")).getLast?).getD r) }
  (sorted, store2)

/-! ## Loading the backing document -/

/-- A decoded JSON value. -/
inductive Json
  | null
  | bool (b : Bool)
  | num (n : Int)
  | str (s : String)
  | arr (xs : List Json)
  | obj (kvs : List (String × Json))

/-- Whether a JSON value is an object. -/
def Json.isObj : Json → Bool
  | .obj _ => true
  | _ => false

/-- Key lookup in a decoded JSON object. -/
def lookupKey (kvs : List (String × Json)) (k : String) : Option Json :=
  (kvs.find? (fun p => p.1 = k)).map Prod.snd

/-- The document shape `load_data` promises: a reminders list and a
chat-settings object, both possibly raw JSON. -/
structure JsonDoc where
  reminders : List Json
  chat_settings : List (String × Json)

/-- `load_data` over the decoded backing file: `none` models a missing
file, `some none` a file whose bytes raise `JSONDecodeError`,
`some (some j)` a file decoding to `j`.  A decoded object has its
`reminders`/`chat_settings` fields defaulted when missing or of the wrong
shape; a decoded non-object raises (modelled by `Except.error`), since
the membership test or item assignment on it fails. -/
def load_data (file : Option (Option Json)) : Except Unit JsonDoc :=
  match file with
  | none => .ok ⟨[], []⟩
  | some none => .ok ⟨[], []⟩
  | some (some (.obj kvs)) =>
      let rems := match lookupKey kvs "reminders" with
        | some (.arr xs) => xs
        | _ => []
      let cs := match lookupKey kvs "chat_settings" with
        | some (.obj m) => m
        | _ => []
      .ok ⟨rems, cs⟩
  | some (some _) => .error ()

/-! ## Conversation sessions and handlers -/

/-- A per-user reminder-creation session (`states[user_id]`): current
step, the chat it was started in, its thread, and the partial title and
date entered so far (`none` models a key not yet present). -/
structure Session where
  step : String
  chat_id : Int
  thread_id : Option Int
  title : Option String
  date : Option Int
deriving DecidableEq, Repr

/-- Combined effect of one handler invocation on the user's session, the
persisted document and the scheduler. -/
structure HandlerOut where
  session : Option Session
  store : Store
  sched : SchedResult
deriving DecidableEq, Repr

/-- `finalize_reminder`: combine the session's date with the chosen
time-of-day, localize into the configured zone; an event at or before now
is rejected (session reset to the date-pick step, nothing persisted or
scheduled), a strictly future one is persisted and scheduled and the
session destroyed.  `none` models the `KeyError` raised when the session
lacks `title` or `date`. -/
def finalize_reminder (tz : Tz) (nowUtc : Int) (freshId : String) (user_id : Int)
    (st : Option Session) (chat_id : Int) (time_s : Int) (store : Store) :
    Option HandlerOut :=
  match st with
  | none => some ⟨none, store, ⟨[], []⟩⟩
  | some s =>
    match s.title, s.date with
    | some title, some d =>
      let event_naive : Int := d * 86400 + time_s
      let event_dt : PyDateTime := ⟨event_naive, some (tz.locOff event_naive)⟩
      if event_dt.instant ≤ (now_tz tz nowUtc).instant then
        some ⟨some { s with step := "date_pick" }, store, ⟨[], []⟩⟩
      else
        let thread_id := match get_allowed_thread_id store chat_id with
          | some a => some a
          | none => s.thread_id
        let rem : Reminder :=
          ⟨freshId, chat_id, user_id, title, dt_to_iso tz event_dt,
           dt_to_iso tz (now_tz tz nowUtc), thread_id⟩
        some ⟨none, { store with reminders := store.reminders ++ [rem] },
              schedule_reminder_jobs tz nowUtc rem⟩
    | _, _ => none

/-- The callback payloads handled by the reminder callback handler. -/
inductive CbData
  | cancel
  | datePick (d : Int)
  | dateManual
  | timePick (t : Int)
  | timeManual
deriving DecidableEq, Repr

/-- The reminder callback handler: outside the pinned topic nothing
happens; a cancel clears the user's session before any chat check; any
other payload is dropped when there is no session or the session's chat
differs from the callback's chat, and otherwise advances the session
(date pick, manual-entry switches) or finalizes (time pick). -/
def callbacks_reminders (tz : Tz) (nowUtc : Int) (freshId : String) (inTopic : Bool)
    (user_id chat_id : Int) (st : Option Session) (store : Store) (data : CbData) :
    Option HandlerOut :=
  if inTopic = false then some ⟨st, store, ⟨[], []⟩⟩
  else if data = CbData.cancel then some ⟨none, store, ⟨[], []⟩⟩
  else
    match st with
    | none => some ⟨none, store, ⟨[], []⟩⟩
    | some s =>
      if s.chat_id ≠ chat_id then some ⟨some s, store, ⟨[], []⟩⟩
      else
        match data with
        | .cancel => some ⟨none, store, ⟨[], []⟩⟩
        | .datePick d =>
            some ⟨some { s with date := some d, step := "time_pick" }, store, ⟨[], []⟩⟩
        | .dateManual => some ⟨some { s with step := "date_manual" }, store, ⟨[], []⟩⟩
        | .timePick t => finalize_reminder tz nowUtc freshId user_id (some s) chat_id t store
        | .timeManual => some ⟨some { s with step := "time_manual" }, store, ⟨[], []⟩⟩

/-- An incoming text message as the router sees it: the stripped text,
its parse under the two accepted manual date formats, and its parse as a
`HH:MM` time of day. -/
structure InText where
  text : String
  asDate : Option Int
  asTime : Option Int
deriving DecidableEq, Repr

/-- The text router (reminder flow): outside the pinned topic or without
a session nothing happens; a message from a chat other than the session's
is dropped before any step dispatch; otherwise the title, manual-date and
manual-time steps consume the text, re-prompting in place on invalid
input and finalizing on a valid manual time. -/
def text_router (tz : Tz) (nowUtc : Int) (freshId : String) (inTopic : Bool)
    (user_id msg_chat : Int) (st : Option Session) (store : Store) (m : InText) :
    Option HandlerOut :=
  if inTopic = false then some ⟨st, store, ⟨[], []⟩⟩
  else
    match st with
    | none => some ⟨none, store, ⟨[], []⟩⟩
    | some s =>
      if s.chat_id ≠ msg_chat then some ⟨some s, store, ⟨[], []⟩⟩
      else if s.step = "title" then
        (if m.text = "" then some ⟨some s, store, ⟨[], []⟩⟩
         else some ⟨some { s with title := some m.text, step := "date_pick" }, store, ⟨[], []⟩⟩)
      else if s.step = "date_manual" then
        (match m.asDate with
         | none => some ⟨some s, store, ⟨[], []⟩⟩
         | some d => some ⟨some { s with date := some d, step := "time_pick" }, store, ⟨[], []⟩⟩)
      else if s.step = "time_manual" then
        (match m.asTime with
         | none => some ⟨some s, store, ⟨[], []⟩⟩
         | some t => finalize_reminder tz nowUtc freshId user_id (some s) msg_chat t store)
      else some ⟨some s, store, ⟨[], []⟩⟩

/-! ## Concrete data for witnesses -/

/-- A concrete reminder used by concrete witnesses: event time at local
wall second 100800 with the Moscow offset, i.e. UTC instant 90000. -/
def remW : Reminder :=
  ⟨"r1", 7, 5, "Team sync", .aware 100800 10800, .aware 10800 10800, none⟩

/-! ## General lemmas about the folds -/

/-- A left fold that appends one image per element to each component is
the pair of mapped lists. -/
theorem foldl_append_pair {α β γ : Type} (f : α → β) (g : α → γ)
    (l : List α) (acc : List β × List γ) :
    l.foldl (fun acc r => (acc.1 ++ [f r], acc.2 ++ [g r])) acc
      = (acc.1 ++ l.map f, acc.2 ++ l.map g) := by
  induction l generalizing acc with
  | nil => simp
  | cons x xs ih => simp [List.foldl, ih]

/-- Rehydration in closed form: the saved document maps renormalization
over the stored records, and the scheduler effects are the per-record
effects in order. -/
theorem reschedule_all_eq (tz : Tz) (nowUtc : Int) (store : Store) :
    reschedule_all_from_store tz nowUtc store =
      ({ store with reminders := store.reminders.map (normalizeEvent tz) },
       store.reminders.map (fun r => schedule_reminder_jobs tz nowUtc (normalizeEvent tz r))) := by
  simp only [reschedule_all_from_store, foldl_append_pair, List.nil_append]

/-- The cleanup partition fold in closed form: kept records are the
non-removed ones re-normalized, removed ids are the ids of removed ones,
in order. -/
theorem cleanup_fold_eq (tz : Tz) (c : Int) (l : List Reminder)
    (acc : List Reminder × List String) :
    l.foldl (cleanupStep tz c) acc =
      (acc.1 ++ (l.filter (fun r => !(isRemoved tz c r))).map (normalizeEvent tz),
       acc.2 ++ (l.filter (fun r => isRemoved tz c r)).map Reminder.id) := by
  induction l generalizing acc with
  | nil => simp
  | cons x xs ih =>
    rw [List.foldl_cons, ih]
    rcases hp : dt_from_iso tz x.event_dt with _ | dt
    · simp [cleanupStep, hp, isRemoved, List.filter_cons]
    · rcases lt_or_le dt.instant c with hlt | hge
      · simp [cleanupStep, hp, hlt, isRemoved, List.filter_cons]
      · simp [cleanupStep, hp, not_lt.mpr hge, isRemoved, List.filter_cons,
          normalizeEvent]

/-- A left fold appending two images per element is the flat map of the
two-element lists. -/
theorem foldl_append2_eq (f g : String → String) (l : List String)
    (acc : List String) :
    l.foldl (fun acc rid => acc ++ [f rid, g rid]) acc
      = acc ++ l.flatMap (fun rid => [f rid, g rid]) := by
  induction l generalizing acc with
  | nil => simp
  | cons x xs ih => simp [List.foldl_cons, ih]

/-! ## The claims -/

/-- C7: serialization is idempotent under the clock service: for every
instant (zone-aware datetime), parsing its canonical serialization
succeeds, and re-serializing the parse result reproduces the original
serialization: format(parse(format(instant))) = format(instant). -/
theorem C7_round_trip (tz : Tz) (d : PyDateTime) (o : Int) (h : d.off = some o) :
    (dt_from_iso tz (dt_to_iso tz d)).map (dt_to_iso tz) = some (dt_to_iso tz d) := by
  cases d with
  | mk wall off =>
    cases off with
    | none => simp at h
    | some o2 =>
      simp only [dt_to_iso, dt_from_iso, Option.map]
      have h1 : wall - o2 + tz.utcOff (wall - o2) - tz.utcOff (wall - o2) = wall - o2 := by ring
      simp only [h1]

/-- Witness for C7 at a concrete instant under the concrete timezone. -/
theorem C7_round_trip_witness :
    (dt_from_iso tzMsk (dt_to_iso tzMsk ⟨1000, some 10800⟩)).map (dt_to_iso tzMsk)
      = some (dt_to_iso tzMsk ⟨1000, some 10800⟩) :=
  C7_round_trip tzMsk ⟨1000, some 10800⟩ 10800 rfl

/-- C1: with a parseable event time, `schedule_reminder_jobs` considers
exactly the offsets 24h and 1h with job ids derived from the reminder id;
an offset whose fire time is at or before now yields a cancellation and no
job, an offset with a strictly future fire time yields a job at that fire
time; hence more than 24h out gives two jobs, between 1h and 24h out only
the 1h job, and within 1h zero jobs with both ids canceled. -/
theorem C1_dual_job_invariant (tz : Tz) (nowUtc : Int) (rem : Reminder)
    (e : PyDateTime) (h : dt_from_iso tz rem.event_dt = some e) :
    (schedule_reminder_jobs tz nowUtc rem).canceled =
      ((if e.instant - 86400 ≤ nowUtc then [jobId rem.id "24h"] else []) ++
       (if e.instant - 3600 ≤ nowUtc then [jobId rem.id "1h"] else [])) ∧
    (schedule_reminder_jobs tz nowUtc rem).scheduled =
      ((if e.instant - 86400 ≤ nowUtc then [] else [(jobId rem.id "24h", e.instant - 86400)]) ++
       (if e.instant - 3600 ≤ nowUtc then [] else [(jobId rem.id "1h", e.instant - 3600)])) ∧
    (nowUtc + 86400 < e.instant →
      (schedule_reminder_jobs tz nowUtc rem).scheduled =
        [(jobId rem.id "24h", e.instant - 86400), (jobId rem.id "1h", e.instant - 3600)] ∧
      (schedule_reminder_jobs tz nowUtc rem).canceled = []) ∧
    (nowUtc + 3600 < e.instant ∧ e.instant ≤ nowUtc + 86400 →
      (schedule_reminder_jobs tz nowUtc rem).scheduled = [(jobId rem.id "1h", e.instant - 3600)] ∧
      (schedule_reminder_jobs tz nowUtc rem).canceled = [jobId rem.id "24h"]) ∧
    (e.instant ≤ nowUtc + 3600 →
      (schedule_reminder_jobs tz nowUtc rem).scheduled = [] ∧
      (schedule_reminder_jobs tz nowUtc rem).canceled = [jobId rem.id "24h", jobId rem.id "1h"]) := by
  have hinst : ∀ k : Int, (PyDateTime.mk (e.wall - k) e.off).instant = e.instant - k := by
    intro k
    cases e with
    | mk w o =>
      cases o with
      | none => simp [PyDateTime.instant]
      | some v =>
        simp [PyDateTime.instant]
        try ring
  have hnow : (now_tz tz nowUtc).instant = nowUtc := by
    simp [now_tz, PyDateTime.instant]
  have hres : schedule_reminder_jobs tz nowUtc rem =
      if e.instant - 86400 ≤ nowUtc then
        (if e.instant - 3600 ≤ nowUtc then
          ⟨[], [jobId rem.id "24h", jobId rem.id "1h"]⟩
         else ⟨[(jobId rem.id "1h", e.instant - 3600)], [jobId rem.id "24h"]⟩)
      else
        (if e.instant - 3600 ≤ nowUtc then
          ⟨[(jobId rem.id "24h", e.instant - 86400)], [jobId rem.id "1h"]⟩
         else ⟨[(jobId rem.id "24h", e.instant - 86400), (jobId rem.id "1h", e.instant - 3600)],
               []⟩) := by
    simp only [schedule_reminder_jobs, h, offsets, List.foldl_cons, List.foldl_nil, hinst, hnow]
    split_ifs <;> rfl
  rw [hres]
  rcases le_or_lt (e.instant - 86400) nowUtc with h24 | h24 <;>
    rcases le_or_lt (e.instant - 3600) nowUtc with h1 | h1
  · refine ⟨by simp [h24, h1], by simp [h24, h1], ?_, ?_, ?_⟩
    · intro hlt; exact absurd hlt (by omega)
    · rintro ⟨hlt, _⟩; exact absurd hlt (by omega)
    · intro _
      constructor <;> simp [h24, h1]
  · refine ⟨by simp [h24, not_le.mpr h1], by simp [h24, not_le.mpr h1], ?_, ?_, ?_⟩
    · intro hlt; exact absurd hlt (by omega)
    · intro _
      constructor <;> simp [h24, not_le.mpr h1]
    · intro hle; exact absurd hle (by omega)
  · exact absurd h1 (by omega)
  · refine ⟨by simp [not_le.mpr h24, not_le.mpr h1],
      by simp [not_le.mpr h24, not_le.mpr h1], ?_, ?_, ?_⟩
    · intro _
      constructor <;> simp [not_le.mpr h24, not_le.mpr h1]
    · rintro ⟨_, hle⟩; exact absurd hle (by omega)
    · intro hle; exact absurd hle (by omega)

/-- Witness for C1 under the concrete timezone at now = 0: the event at
UTC instant 90000 is more than 24h = 86400s away, so both jobs are
scheduled and nothing is canceled. -/
theorem C1_dual_job_invariant_witness :
    (schedule_reminder_jobs tzMsk 0 remW).scheduled =
      [(jobId "r1" "24h", 3600), (jobId "r1" "1h", 86400)] ∧
    (schedule_reminder_jobs tzMsk 0 remW).canceled = [] := by
  have h := C1_dual_job_invariant tzMsk 0 remW ⟨100800, some 10800⟩ rfl
  have he : (PyDateTime.mk 100800 (some 10800)).instant = 90000 := by decide
  have := h.2.2.1 (by rw [he]; omega)
  rw [he] at this
  exact ⟨by rw [this.1]; rfl, this.2⟩

/-- C9: an unparsable stored `event_dt` makes `schedule_reminder_jobs`
return immediately with no job scheduled and no job canceled; during
startup rehydration such a record passes through unchanged, its scheduler
effect is empty, and the pass completes on it. -/
theorem C9_corrupt_no_jobs (tz : Tz) (nowUtc : Int) (rem : Reminder)
    (h : dt_from_iso tz rem.event_dt = none) :
    schedule_reminder_jobs tz nowUtc rem = ⟨[], []⟩ ∧
    (∀ store : Store, rem ∈ store.reminders →
      rem ∈ (reschedule_all_from_store tz nowUtc store).1.reminders ∧
      ⟨[], []⟩ ∈ (reschedule_all_from_store tz nowUtc store).2) := by
  have hsched : schedule_reminder_jobs tz nowUtc rem = ⟨[], []⟩ := by
    simp [schedule_reminder_jobs, h]
  have hnorm : normalizeEvent tz rem = rem := by
    simp [normalizeEvent, h]
  refine ⟨hsched, ?_⟩
  intro store hmem
  rw [reschedule_all_eq]
  constructor
  · exact List.mem_map.mpr ⟨rem, hmem, hnorm⟩
  · exact List.mem_map.mpr ⟨rem, hmem, by rw [hnorm, hsched]⟩

/-- Witness for C9: a concrete reminder with unparsable `event_dt` in a
one-element store acquires no jobs and survives rehydration. -/
theorem C9_corrupt_no_jobs_witness :
    schedule_reminder_jobs tzMsk 0 ⟨"r2", 7, 5, "x", .invalid "garbage", .aware 0 10800, none⟩
        = ⟨[], []⟩ ∧
    (⟨"r2", 7, 5, "x", .invalid "garbage", .aware 0 10800, none⟩ : Reminder) ∈
      (reschedule_all_from_store tzMsk 0
        ⟨[⟨"r2", 7, 5, "x", .invalid "garbage", .aware 0 10800, none⟩], []⟩).1.reminders := by
  have h := C9_corrupt_no_jobs tzMsk 0
      ⟨"r2", 7, 5, "x", .invalid "garbage", .aware 0 10800, none⟩ rfl
  exact ⟨h.1,
    (h.2 ⟨[⟨"r2", 7, 5, "x", .invalid "garbage", .aware 0 10800, none⟩], []⟩
      (List.mem_singleton.mpr rfl)).1⟩

/-- C3 counterexample: a stored record with unparsable timestamp and a
missing id (read back as the empty string) is removed by cleanup, yet no
job id at all is canceled — in particular not its derived 24h id. -/
theorem C3_cleanup_counterexample :
    (cleanup_expired tzMsk 0 24 ⟨[⟨"", 1, 1, "t", .invalid "x", .invalid "x", none⟩], []⟩).removed_ids
        = [""] ∧
    (cleanup_expired tzMsk 0 24 ⟨[⟨"", 1, 1, "t", .invalid "x", .invalid "x", none⟩], []⟩).canceled
        = [] ∧
    jobId "" "24h" ∉
      (cleanup_expired tzMsk 0 24 ⟨[⟨"", 1, 1, "t", .invalid "x", .invalid "x", none⟩], []⟩).canceled := by
  refine ⟨?_, ?_, ?_⟩ <;> decide

/-- C3 (amended): on a non-empty store, cleanup removes exactly the
records that are unparsable or strictly before `cutoff = now -
retention`, keeps the rest re-normalized; a record parsing to one second
before the cutoff is removed and one second after is retained; and both
derived job ids are canceled for every removed record whose id is
non-empty (an empty-id record is removed without any cancellation). -/
theorem C3_cleanup_boundary (tz : Tz) (nowUtc retentionHours : Int) (store : Store)
    (hne : store.reminders ≠ []) :
    (cleanup_expired tz nowUtc retentionHours store).removed_ids =
      (store.reminders.filter
        (fun r => isRemoved tz (nowUtc - retentionHours * 3600) r)).map Reminder.id ∧
    (cleanup_expired tz nowUtc retentionHours store).keep =
      (store.reminders.filter
        (fun r => !(isRemoved tz (nowUtc - retentionHours * 3600) r))).map (normalizeEvent tz) ∧
    (∀ r ∈ store.reminders, ∀ dt, dt_from_iso tz r.event_dt = some dt →
      dt.instant = nowUtc - retentionHours * 3600 - 1 →
      r.id ∈ (cleanup_expired tz nowUtc retentionHours store).removed_ids) ∧
    (∀ r ∈ store.reminders, ∀ dt, dt_from_iso tz r.event_dt = some dt →
      dt.instant = nowUtc - retentionHours * 3600 + 1 →
      normalizeEvent tz r ∈ (cleanup_expired tz nowUtc retentionHours store).keep) ∧
    (∀ rid ∈ (cleanup_expired tz nowUtc retentionHours store).removed_ids, rid ≠ "" →
      jobId rid "24h" ∈ (cleanup_expired tz nowUtc retentionHours store).canceled ∧
      jobId rid "1h" ∈ (cleanup_expired tz nowUtc retentionHours store).canceled) := by
  have hcut : (PyDateTime.mk ((now_tz tz nowUtc).wall - retentionHours * 3600)
      (now_tz tz nowUtc).off).instant = nowUtc - retentionHours * 3600 := by
    simp [now_tz, PyDateTime.instant]; ring
  have hids : (cleanup_expired tz nowUtc retentionHours store).removed_ids =
      (store.reminders.filter
        (fun r => isRemoved tz (nowUtc - retentionHours * 3600) r)).map Reminder.id := by
    rw [cleanup_expired]
    simp only [hne, if_false, hcut, cleanup_fold_eq, List.nil_append]
    split <;> rfl
  have hkeep : (cleanup_expired tz nowUtc retentionHours store).keep =
      (store.reminders.filter
        (fun r => !(isRemoved tz (nowUtc - retentionHours * 3600) r))).map (normalizeEvent tz) := by
    rw [cleanup_expired]
    simp only [hne, if_false, hcut, cleanup_fold_eq, List.nil_append]
    split <;> rfl
  refine ⟨hids, hkeep, ?_, ?_, ?_⟩
  · intro r hr dt hdt hinst
    rw [hids]
    refine List.mem_map.mpr ⟨r, List.mem_filter.mpr ⟨hr, ?_⟩, rfl⟩
    simp [isRemoved, hdt, hinst]
  · intro r hr dt hdt hinst
    rw [hkeep]
    refine List.mem_map.mpr ⟨r, List.mem_filter.mpr ⟨hr, ?_⟩, rfl⟩
    simp [isRemoved, hdt, hinst]
  · intro rid hrid hne2
    have hnonempty : (cleanup_expired tz nowUtc retentionHours store).removed_ids ≠ [] := by
      intro hcontra
      rw [hcontra] at hrid
      exact List.not_mem_nil rid hrid
    have hcanc : (cleanup_expired tz nowUtc retentionHours store).canceled =
        (((cleanup_expired tz nowUtc retentionHours store).removed_ids.filter
          (fun rid => rid ≠ "")).flatMap (fun rid => [jobId rid "24h", jobId rid "1h"])) := by
      rw [cleanup_expired] at hnonempty ⊢
      simp only [hne, if_false] at hnonempty ⊢
      split
      · rename_i hkr
        simp [hkr] at hnonempty
      · simp [foldl_append2_eq]
    rw [hcanc]
    constructor
    · exact List.mem_flatMap.mpr ⟨rid,
        List.mem_filter.mpr ⟨hrid, by simpa using hne2⟩, by simp⟩
    · exact List.mem_flatMap.mpr ⟨rid,
        List.mem_filter.mpr ⟨hrid, by simpa using hne2⟩, by simp⟩

/-- Witness for C3 (amended): a two-record store at now = 90000 with a
24h retention window, one record one second before the cutoff and one a
second after; the first is removed with both job ids canceled, the
second is kept. -/
theorem C3_cleanup_boundary_witness :
    (cleanup_expired tzMsk 90000 24
        ⟨[⟨"a", 1, 1, "old", .aware (90000 - 86400 - 1 + 10800) 10800, .aware 0 10800, none⟩,
          ⟨"b", 1, 1, "new", .aware (90000 - 86400 + 1 + 10800) 10800, .aware 0 10800, none⟩],
         []⟩).removed_ids = ["a"] ∧
    jobId "a" "24h" ∈
      (cleanup_expired tzMsk 90000 24
        ⟨[⟨"a", 1, 1, "old", .aware (90000 - 86400 - 1 + 10800) 10800, .aware 0 10800, none⟩,
          ⟨"b", 1, 1, "new", .aware (90000 - 86400 + 1 + 10800) 10800, .aware 0 10800, none⟩],
         []⟩).canceled := by
  have h := C3_cleanup_boundary tzMsk 90000 24
      ⟨[⟨"a", 1, 1, "old", .aware (90000 - 86400 - 1 + 10800) 10800, .aware 0 10800, none⟩,
        ⟨"b", 1, 1, "new", .aware (90000 - 86400 + 1 + 10800) 10800, .aware 0 10800, none⟩],
       []⟩ (by decide)
  have hids := h.1
  refine ⟨by rw [hids]; decide, ?_⟩
  have := h.2.2.2.2 "a" (by rw [hids]; decide) (by decide)
  exact this.1

/-- C8: cleanup writes to the durable store only when something was
removed: an empty store is returned untouched before any computation, a
save happens exactly when the removal list is non-empty, no save leaves
the persisted document unchanged, and when every stored record is
parseable and not strictly before the cutoff nothing is saved even though
the in-memory kept records are re-normalized. -/
theorem C8_cleanup_frame (tz : Tz) (nowUtc retentionHours : Int) (store : Store) :
    (store.reminders = [] →
      cleanup_expired tz nowUtc retentionHours store = ⟨[], [], [], store, false⟩) ∧
    ((cleanup_expired tz nowUtc retentionHours store).saved = true ↔
      (cleanup_expired tz nowUtc retentionHours store).removed_ids ≠ []) ∧
    ((cleanup_expired tz nowUtc retentionHours store).saved = false →
      (cleanup_expired tz nowUtc retentionHours store).store = store) ∧
    ((∀ r ∈ store.reminders, ∃ dt, dt_from_iso tz r.event_dt = some dt ∧
        ¬(dt.instant < nowUtc - retentionHours * 3600)) →
      (cleanup_expired tz nowUtc retentionHours store).saved = false ∧
      (cleanup_expired tz nowUtc retentionHours store).store = store ∧
      (cleanup_expired tz nowUtc retentionHours store).keep =
        store.reminders.map (normalizeEvent tz)) := by
  have hcut : (PyDateTime.mk ((now_tz tz nowUtc).wall - retentionHours * 3600)
      (now_tz tz nowUtc).off).instant = nowUtc - retentionHours * 3600 := by
    simp [now_tz, PyDateTime.instant]; ring
  by_cases hne : store.reminders = []
  · refine ⟨fun _ => by rw [cleanup_expired]; simp [hne], ?_, ?_, ?_⟩
    · rw [cleanup_expired]; simp [hne]
    · rw [cleanup_expired]; simp [hne]
    · intro _
      rw [cleanup_expired]; simp [hne]
  · refine ⟨fun h => absurd h hne, ?_, ?_, ?_⟩
    · rw [cleanup_expired]
      simp only [hne, if_false]
      split
      · rename_i hkr; simp [hkr]
      · rename_i hkr; simp [hkr]
    · rw [cleanup_expired]
      simp only [hne, if_false]
      split
      · intro _; rfl
      · intro hfalse; exact absurd hfalse (by simp)
    · intro hall
      have hfilter : store.reminders.filter
          (fun r => isRemoved tz (nowUtc - retentionHours * 3600) r) = [] := by
        rw [List.filter_eq_nil_iff]
        intro r hr
        obtain ⟨dt, hdt, hge⟩ := hall r hr
        simp [isRemoved, hdt, hge]
      have hfilter2 : store.reminders.filter
          (fun r => !(isRemoved tz (nowUtc - retentionHours * 3600) r)) = store.reminders := by
        rw [List.filter_eq_self]
        intro r hr
        obtain ⟨dt, hdt, hge⟩ := hall r hr
        simp [isRemoved, hdt, hge]
      rw [cleanup_expired]
      simp only [hne, if_false, hcut, cleanup_fold_eq, List.nil_append, hfilter, hfilter2,
        List.map_nil]
      simp

/-- Witness for C8: a singleton store whose one record is parseable and
inside the retention window is not saved back and keeps its document. -/
theorem C8_cleanup_frame_witness :
    (cleanup_expired tzMsk 0 24 ⟨[remW], []⟩).saved = false ∧
    (cleanup_expired tzMsk 0 24 ⟨[remW], []⟩).store = ⟨[remW], []⟩ := by
  have h := (C8_cleanup_frame tzMsk 0 24 ⟨[remW], []⟩).2.2.2
    (by
      intro r hr
      refine ⟨⟨100800, some 10800⟩, ?_, ?_⟩ <;> (simp [remW] at hr; subst hr; decide))
  exact ⟨h.1, h.2.1⟩

/-- Membership in an ordered insertion. -/
theorem mem_insertByKey (le : IsoStr → IsoStr → Bool) (r a : Reminder)
    (l : List Reminder) :
    a ∈ insertByKey le r l ↔ a = r ∨ a ∈ l := by
  induction l with
  | nil => simp [insertByKey]
  | cons x xs ih =>
    simp only [insertByKey]
    split
    · simp only [List.mem_cons, ih]
      tauto
    · simp only [List.mem_cons]

/-- Sorting by the serialized key does not change membership. -/
theorem mem_sortByKey (le : IsoStr → IsoStr → Bool) (a : Reminder)
    (l : List Reminder) :
    a ∈ sortByKey le l ↔ a ∈ l := by
  induction l with
  | nil => simp [sortByKey]
  | cons x xs ih => simp [sortByKey, mem_insertByKey, ih]

/-- On a non-empty store, the cleanup partition in closed form: removed
ids are the ids of the unparsable or expired records, kept records are
the others re-normalized. -/
theorem cleanup_partition (tz : Tz) (nowUtc retentionHours : Int) (store : Store)
    (hne : store.reminders ≠ []) :
    (cleanup_expired tz nowUtc retentionHours store).removed_ids =
      (store.reminders.filter
        (fun r => isRemoved tz (nowUtc - retentionHours * 3600) r)).map Reminder.id ∧
    (cleanup_expired tz nowUtc retentionHours store).keep =
      (store.reminders.filter
        (fun r => !(isRemoved tz (nowUtc - retentionHours * 3600) r))).map (normalizeEvent tz) := by
  have hcut : (PyDateTime.mk ((now_tz tz nowUtc).wall - retentionHours * 3600)
      (now_tz tz nowUtc).off).instant = nowUtc - retentionHours * 3600 := by
    simp [now_tz, PyDateTime.instant]; ring
  constructor
  · rw [cleanup_expired]
    simp only [hne, if_false, hcut, cleanup_fold_eq, List.nil_append]
    split <;> rfl
  · rw [cleanup_expired]
    simp only [hne, if_false, hcut, cleanup_fold_eq, List.nil_append]
    split <;> rfl

/-- C2: `finalize_reminder` on a session holding a title and date, with
the combined localized event time at or before now, rejects the
creation — nothing is appended or scheduled and the session survives,
reset to the date-pick step with the title preserved; with the event
strictly after now, a reminder carrying that title, chat and event time
is appended, its jobs are registered, and the session is destroyed. -/
theorem C2_no_past_commits (tz : Tz) (nowUtc : Int) (freshId : String)
    (user_id : Int) (s : Session) (chat_id time_s : Int) (store : Store)
    (t : String) (d : Int) (ht : s.title = some t) (hd : s.date = some d) :
    ((PyDateTime.mk (d * 86400 + time_s)
        (some (tz.locOff (d * 86400 + time_s)))).instant ≤ nowUtc →
      finalize_reminder tz nowUtc freshId user_id (some s) chat_id time_s store =
        some ⟨some { s with step := "date_pick" }, store, ⟨[], []⟩⟩ ∧
      ({ s with step := "date_pick" } : Session).title = some t) ∧
    (nowUtc < (PyDateTime.mk (d * 86400 + time_s)
        (some (tz.locOff (d * 86400 + time_s)))).instant →
      ∃ rem : Reminder,
        finalize_reminder tz nowUtc freshId user_id (some s) chat_id time_s store =
          some ⟨none, { store with reminders := store.reminders ++ [rem] },
                schedule_reminder_jobs tz nowUtc rem⟩ ∧
        rem.title = t ∧ rem.chat_id = chat_id ∧
        rem.event_dt =
          dt_to_iso tz ⟨d * 86400 + time_s, some (tz.locOff (d * 86400 + time_s))⟩) := by
  have hnow : (now_tz tz nowUtc).instant = nowUtc := by
    simp [now_tz, PyDateTime.instant]
  obtain ⟨sstep, schat, sthr, stitle, sdate⟩ := s
  replace ht : stitle = some t := ht
  replace hd : sdate = some d := hd
  subst ht
  subst hd
  constructor
  · intro hle
    refine ⟨?_, rfl⟩
    simp only [finalize_reminder]
    rw [if_pos (by rw [hnow]; exact hle)]
  · intro hlt
    refine ⟨⟨freshId, chat_id, user_id, t,
        dt_to_iso tz ⟨d * 86400 + time_s, some (tz.locOff (d * 86400 + time_s))⟩,
        dt_to_iso tz (now_tz tz nowUtc),
        match get_allowed_thread_id store chat_id with
        | some a => some a
        | none => sthr⟩, ?_, rfl, rfl, rfl⟩
    simp only [finalize_reminder]
    rw [if_neg (by rw [hnow]; exact not_le.mpr hlt)]

/-- Witness for C2 at concrete data: a session with title and date whose
combined event time lies before now; the creation is rejected, the store
is untouched, and the session is reset to the date-pick step with its
title intact. -/
theorem C2_no_past_commits_witness :
    finalize_reminder tzMsk 100 "f1" 5
        (some ⟨"time_pick", 1, none, some "T", some 0⟩) 1 0 ⟨[], []⟩ =
      some ⟨some ⟨"date_pick", 1, none, some "T", some 0⟩, ⟨[], []⟩, ⟨[], []⟩⟩ := by
  have h := (C2_no_past_commits tzMsk 100 "f1" 5
      ⟨"time_pick", 1, none, some "T", some 0⟩ 1 0 ⟨[], []⟩ "T" 0 rfl rfl).1
    (by decide)
  exact h.1

/-- C4 counterexample: a stored record for chat 1 whose `event_dt` is
unparsable is returned by `get_chat_reminders` for that chat, not
excluded from it. -/
theorem C4_listing_counterexample :
    (get_chat_reminders tzMsk leTrue
        ⟨[⟨"c", 1, 1, "bad", .invalid "???", .invalid "???", none⟩], []⟩ 1).1 =
      [⟨"c", 1, 1, "bad", .invalid "???", .invalid "???", none⟩] ∧
    (⟨"c", 1, 1, "bad", .invalid "???", .invalid "???", none⟩ : Reminder) ∈
      (get_chat_reminders tzMsk leTrue
        ⟨[⟨"c", 1, 1, "bad", .invalid "???", .invalid "???", none⟩], []⟩ 1).1 := by
  constructor <;> decide

/-- C4 (amended): a stored record with unparsable `event_dt` is included
unchanged in the listing for its chat, and the next cleanup pass removes
it while every parseable record inside the retention window is kept
(re-normalized). -/
theorem C4_corrupt_entry (tz : Tz) (le : IsoStr → IsoStr → Bool)
    (nowUtc retentionHours : Int) (store : Store) (chat : Int) (r : Reminder)
    (hr : r ∈ store.reminders) (hchat : r.chat_id = chat)
    (hbad : dt_from_iso tz r.event_dt = none) :
    r ∈ (get_chat_reminders tz le store chat).1 ∧
    r.id ∈ (cleanup_expired tz nowUtc retentionHours store).removed_ids ∧
    (∀ s ∈ store.reminders, ∀ dt, dt_from_iso tz s.event_dt = some dt →
      ¬(dt.instant < nowUtc - retentionHours * 3600) →
      normalizeEvent tz s ∈ (cleanup_expired tz nowUtc retentionHours store).keep) := by
  have hne : store.reminders ≠ [] := by
    intro hcontra
    rw [hcontra] at hr
    simp at hr
  have hnorm : normalizeEvent tz r = r := by
    simp [normalizeEvent, hbad]
  have hpart := cleanup_partition tz nowUtc retentionHours store hne
  refine ⟨?_, ?_, ?_⟩
  · simp only [get_chat_reminders]
    rw [mem_sortByKey]
    exact List.mem_map.mpr ⟨r,
      List.mem_filter.mpr ⟨hr, by simp [hchat]⟩, hnorm⟩
  · rw [hpart.1]
    refine List.mem_map.mpr ⟨r, List.mem_filter.mpr ⟨hr, ?_⟩, rfl⟩
    simp [isRemoved, hbad]
  · intro s hs dt hdt hok
    rw [hpart.2]
    refine List.mem_map.mpr ⟨s, List.mem_filter.mpr ⟨hs, ?_⟩, rfl⟩
    simp [isRemoved, hdt, hok]

/-- Witness for C4 (amended) at the concrete corrupt record: listed for
its chat and removed by the next cleanup pass. -/
theorem C4_corrupt_entry_witness :
    (⟨"c", 1, 1, "bad", .invalid "x", .invalid "x", none⟩ : Reminder) ∈
      (get_chat_reminders tzMsk leTrue
        ⟨[⟨"c", 1, 1, "bad", .invalid "x", .invalid "x", none⟩], []⟩ 1).1 ∧
    "c" ∈ (cleanup_expired tzMsk 0 24
      ⟨[⟨"c", 1, 1, "bad", .invalid "x", .invalid "x", none⟩], []⟩).removed_ids := by
  have h := C4_corrupt_entry tzMsk leTrue 0 24
      ⟨[⟨"c", 1, 1, "bad", .invalid "x", .invalid "x", none⟩], []⟩ 1
      ⟨"c", 1, 1, "bad", .invalid "x", .invalid "x", none⟩
      (List.mem_singleton.mpr rfl) rfl rfl
  exact ⟨h.1, h.2.1⟩

/-- C5 counterexample: a backing file whose contents decode to the JSON
value `[]` (valid JSON, not the expected document) makes `load_data`
raise instead of returning the empty document. -/
theorem C5_load_counterexample :
    load_data (some (some (Json.arr []))) = Except.error () := rfl

/-- C5 (amended): `load_data` returns the empty document on a missing
file and on contents that fail JSON decoding, and always yields a
document on contents decoding to a JSON object; but contents decoding to
a non-object JSON value raise a `TypeError` instead of being treated as
empty. -/
theorem C5_load_recover (kvs : List (String × Json)) (j : Json)
    (hj : j.isObj = false) :
    load_data none = Except.ok ⟨[], []⟩ ∧
    load_data (some none) = Except.ok ⟨[], []⟩ ∧
    (∃ d, load_data (some (some (Json.obj kvs))) = Except.ok d) ∧
    load_data (some (some j)) = Except.error () := by
  refine ⟨rfl, rfl, ⟨_, rfl⟩, ?_⟩
  cases j with
  | obj kvs2 => simp [Json.isObj] at hj
  | null => rfl
  | bool b => rfl
  | num n => rfl
  | str s => rfl
  | arr xs => rfl

/-- Witness for C5 (amended) at concrete contents: a missing file yields
the empty document and a decoded JSON `null` raises. -/
theorem C5_load_recover_witness :
    load_data none = Except.ok ⟨[], []⟩ ∧
    load_data (some (some Json.null)) = Except.error () :=
  ⟨(C5_load_recover [] Json.null rfl).1, (C5_load_recover [] Json.null rfl).2.2.2⟩

/-- C6 counterexample: a cancel callback arriving from chat 2 clears a
session recorded for chat 1 — it is handled before the chat check, so it
does affect a session of a different chat. -/
theorem C6_cancel_counterexample :
    callbacks_reminders tzMsk 0 "f" true 5 2
        (some ⟨"date_pick", 1, none, some "T", none⟩) ⟨[], []⟩ CbData.cancel =
      some ⟨none, ⟨[], []⟩, ⟨[], []⟩⟩ ∧
    (Session.mk "date_pick" 1 none (some "T") none).chat_id ≠ 2 :=
  ⟨rfl, by decide⟩

/-- C6 (amended): every session event other than cancel that arrives from
a chat different from the session's recorded chat is dropped — session,
store and scheduler untouched — both for callbacks and for text
messages; the cancel signal, however, destroys the user's session
regardless of the originating chat. -/
theorem C6_cross_chat_guard (tz : Tz) (nowUtc : Int) (freshId : String)
    (user_id chat_id : Int) (s : Session) (store : Store) (m : InText)
    (hch : s.chat_id ≠ chat_id) :
    (∀ data : CbData, data ≠ CbData.cancel →
      callbacks_reminders tz nowUtc freshId true user_id chat_id (some s) store data =
        some ⟨some s, store, ⟨[], []⟩⟩) ∧
    text_router tz nowUtc freshId true user_id chat_id (some s) store m =
      some ⟨some s, store, ⟨[], []⟩⟩ ∧
    callbacks_reminders tz nowUtc freshId true user_id chat_id (some s) store CbData.cancel =
      some ⟨none, store, ⟨[], []⟩⟩ := by
  refine ⟨?_, ?_, ?_⟩
  · intro data hdc
    simp [callbacks_reminders, hdc, hch]
  · simp [text_router, hch]
  · simp [callbacks_reminders]

/-- Witness for C6 (amended): a manual-date request and a text message
from chat 2 leave a session recorded for chat 1 untouched. -/
theorem C6_cross_chat_guard_witness :
    callbacks_reminders tzMsk 0 "f" true 5 2
        (some ⟨"date_pick", 1, none, some "T", none⟩) ⟨[], []⟩ CbData.dateManual =
      some ⟨some ⟨"date_pick", 1, none, some "T", none⟩, ⟨[], []⟩, ⟨[], []⟩⟩ ∧
    text_router tzMsk 0 "f" true 5 2
        (some ⟨"date_pick", 1, none, some "T", none⟩) ⟨[], []⟩ ⟨"hi", none, none⟩ =
      some ⟨some ⟨"date_pick", 1, none, some "T", none⟩, ⟨[], []⟩, ⟨[], []⟩⟩ := by
  have h := C6_cross_chat_guard tzMsk 0 "f" 5 2
      ⟨"date_pick", 1, none, some "T", none⟩ ⟨[], []⟩ ⟨"hi", none, none⟩ (by decide)
  exact ⟨h.1 CbData.dateManual (by decide), h.2.1⟩

end BkBot
